import Mathlib

/-
Verification model of packages/stats/scripts/fetch_kas.py.

Python values are shallowly embedded: numbers as Int / Rat, strings as
String, nullable values as Option, dicts as association lists, and the
network as an explicit per-URL response oracle.  Python floats are modelled
as rationals; fallible code returns Option or Except.  Python str.strip and
str.isdigit are modelled on the character set that actually reaches these
helpers (ASCII whitespace plus the non-breaking space, ASCII digits).
-/

namespace FetchKas

/-- A Python value as seen by `coerce_number`: `None`, an int, a float
(modelled as a rational) or a string. -/
inductive PyVal where
  | none : PyVal
  | int (i : Int) : PyVal
  | float (q : ℚ) : PyVal
  | str (s : String) : PyVal
deriving DecidableEq

/-- The placeholder / missing-data markers recognised by `coerce_number`
(`{".", "..", "...", "-"}` in the source). -/
def missingMarkers : List String := [".", "..", "...", "-"]

/-- Characters stripped by Python `str.strip()` as far as this script's
inputs go: ASCII whitespace and the non-breaking space U+00A0. -/
def pyIsSpace (c : Char) : Bool :=
  c = ' ' || c = '\t' || c = '\n' || c = '\r' || c = '\x0b' || c = '\x0c' || c = '\u00A0'

/-- Model of Python `str.strip()`. -/
def pyStrip (s : String) : String :=
  ⟨((s.data.dropWhile pyIsSpace).reverse.dropWhile pyIsSpace).reverse⟩

/-- Model of `coerce_number` (fetch_kas.py lines 115-129).  `parse` models the
Python builtin `float(s)` applied to a string: `some q` on success and `none`
when `float` would raise `ValueError` (the source catches that exception and
returns `None`). -/
def coerce_number (parse : String → Option ℚ) : PyVal → Option ℚ
  | PyVal.none => Option.none
  | PyVal.int i => some (i : ℚ)
  | PyVal.float q => some q
  | PyVal.str v =>
      let s := pyStrip v
      if s = "" ∨ s ∈ missingMarkers then Option.none
      else parse ((s.replace "\u00A0" "").replace "," "")

/-- A JSON number as written by the script: a Python int or a Python float. -/
inductive JNum where
  | int (i : Int) : JNum
  | float (q : ℚ) : JNum
deriving DecidableEq

/-- Model of `tidy_number` (fetch_kas.py lines 131-136): integer-valued
numbers are written as ints, everything else as floats, `None` stays `None`. -/
def tidy_number : Option ℚ → Option JNum
  | Option.none => Option.none
  | some q => if q.den = 1 then some (JNum.int q.num) else some (JNum.float q)

/-- Model of Python `str.isdigit()` restricted to ASCII digits (the month
codes this script handles are ASCII).  Python returns `False` on the empty
string. -/
def pyIsDigitStr (s : String) : Bool :=
  !s.data.isEmpty && s.data.all Char.isDigit

/-- Model of Python `str.zfill(width)`: left-pad with zeros to `width`,
keeping a leading sign in place. -/
def pyZfill (s : String) (width : Nat) : String :=
  match s.data with
  | c :: cs =>
      if c = '+' ∨ c = '-' then ⟨c :: (List.replicate (width - s.length) '0' ++ cs)⟩
      else ⟨List.replicate (width - s.length) '0' ++ s.data⟩
  | [] => ⟨List.replicate width '0'⟩

/-- Model of `normalize_ym` (fetch_kas.py lines 218-227).  `code.split("M", 1)`
is modelled by `takeWhile` / `dropWhile` at the first `'M'`. -/
def normalize_ym (code : String) : String :=
  if pyIsDigitStr code = true ∧ code.length = 6 then
    (⟨code.data.take 4⟩ : String) ++ "-" ++ (⟨(code.data.drop 4).take 2⟩ : String)
  else if code.data.contains 'M' then
    (⟨code.data.takeWhile (fun c => c ≠ 'M')⟩ : String) ++ "-" ++
      pyZfill (⟨(code.data.dropWhile (fun c => c ≠ 'M')).drop 1⟩ : String) 2
  else if code.length = 7 ∧ code.data.getD 4 ' ' = '-' then code
  else code

-- ---------------------------------------------------------------------------
-- Data cubes, the classic row-table shape and its lookup dictionary
-- ---------------------------------------------------------------------------

/-- A column of a classic PxWeb row-table response (`cube["columns"]`).
`code` is already stringified (`str(col.get("code"))` in the source). -/
structure TCol where
  type? : Option String
  code : String
deriving DecidableEq

/-- A data row of a classic PxWeb row-table response (`cube["data"]`).
`values?` / `value?` model the presence of the `"values"` / `"value"` keys; a
JSON `null` under `"values"` is modelled as the empty list (the source's
`row.get("values") or [None]` treats both identically). -/
structure TRow where
  key : List String
  values? : Option (List PyVal)
  value? : Option PyVal
deriving DecidableEq

/-- The `dimension` entry of a JSON-stat response: per dimension code, the
`category.index` map from value code to ordinal. -/
abbrev DimInfo := List (String × List (String × Nat))

/-- A PxWeb data response as far as this script reads it.  The `?` fields
model presence of the corresponding JSON keys. -/
structure Cube where
  value? : Option (List PyVal)
  dimension? : Option DimInfo
  id : List String
  size : List Nat
  columns? : Option (List TCol)
  data? : Option (List TRow)
deriving DecidableEq

/-- Python dict assignment `d[k] = v` on an association list keyed by string
tuples: overwrite the existing entry or append a new one. -/
def dictInsert {α : Type} (k : List String) (v : α) :
    List (List String × α) → List (List String × α)
  | [] => [(k, v)]
  | (k2, v2) :: rest => if k2 = k then (k, v) :: rest else (k2, v2) :: dictInsert k v rest

/-- Python `d.get(k)` on an association list. -/
def dictGet {α : Type} (d : List (List String × α)) (k : List String) : Option α :=
  (d.find? (fun p => p.1 == k)).map (fun p => p.2)

/-- The value extracted from a data row by `table_lookup` (lines 158-163):
first element of `"values"` (with `or [None]` fallback), else `"value"`,
else `None`. -/
def rowVal (r : TRow) : PyVal :=
  match r.values? with
  | some l => l.headD PyVal.none
  | Option.none =>
      match r.value? with
      | some v => v
      | Option.none => PyVal.none

/-- Model of `table_lookup` (fetch_kas.py lines 138-165).  Returns the
dimension-code list and the key-tuple lookup dictionary, or `none` when the
rows are missing/empty or no dimension codes can be determined.  Python
truthiness of `columns` / `dim_order` (present and non-empty) is matched
explicitly. -/
def table_lookup (parse : String → Option ℚ) (cube : Cube)
    (dim_order : Option (List String)) :
    Option (List String × List (List String × Option ℚ)) :=
  match cube.data? with
  | Option.none => Option.none
  | some [] => Option.none
  | some (r :: rs) =>
      let dimCodes? : Option (List String) :=
        match cube.columns? with
        | some (c :: cs) =>
            some (((c :: cs).filter (fun col => col.type? ≠ some "c")).map
              (fun col => col.code))
        | _ =>
            match dim_order with
            | some (d :: ds) => some (d :: ds)
            | _ => Option.none
      match dimCodes? with
      | Option.none => Option.none
      | some dim_codes =>
          some (dim_codes,
            (r :: rs).foldl (fun acc row =>
              if row.key.length ≠ dim_codes.length then acc
              else dictInsert row.key (coerce_number parse (rowVal row)) acc) [])

/-- Model of Python `list.index` wrapped in `try/except ValueError`:
the index of the first occurrence, or `none`. -/
def py_index (l : List String) (x : String) : Option Nat :=
  match l with
  | [] => Option.none
  | y :: ys => if y = x then some 0 else (py_index ys x).map (fun n => n + 1)

/-- The assignment loop of `lookup_table_value` (lines 169-174): place each
assignment's value at the index of its dimension code, or fail when a code is
absent.  Iterating the association list in order has the same outcome as
iterating the Python dict. -/
def assignLoop (dc : List String) :
    List (String × String) → List (Option String) → Option (List (Option String))
  | [], key => some key
  | p :: rest, key =>
      match py_index dc p.1 with
      | Option.none => Option.none
      | some i => assignLoop dc rest (key.set i (some p.2))

/-- Model of `lookup_table_value` (fetch_kas.py lines 167-177).  Returns the
stored value (itself possibly `None`, conflated with a missing key exactly as
`lookup.get` conflates them). -/
def lookup_table_value (dc : List String)
    (lookup : List (List String × Option ℚ))
    (assignments : List (String × String)) : Option ℚ :=
  match assignLoop dc assignments (List.replicate dc.length Option.none) with
  | Option.none => Option.none
  | some key =>
      if key.any (fun v => v.isNone) then Option.none
      else
        match dictGet lookup (key.filterMap id) with
        | some v => v
        | Option.none => Option.none

/-- Spec-side predicate: the assignments fill every position of the
dimension-code list (each position is the first-occurrence index of some
assignment key). -/
def coversAll (dc : List String) (assignments : List (String × String)) : Prop :=
  ∀ i, i < dc.length → ∃ p ∈ assignments, py_index dc p.1 = some i

-- ---------------------------------------------------------------------------
-- GET metadata
-- ---------------------------------------------------------------------------

/-- A variable of a GET-meta response (`meta["variables"][k]`). -/
structure MetaVar where
  code : String
  text : String
  values : List String
  valueTexts : List String
  time : Option Bool
deriving DecidableEq

/-- A GET-meta response; a missing `variables` key is modelled as `[]`
(the source reads it with `meta.get("variables", [])`). -/
structure Meta where
  title : String
  vars : List MetaVar
deriving DecidableEq

/-- Model of `meta_variables` (fetch_kas.py lines 267-268). -/
def meta_variables (m : Meta) : List MetaVar := m.vars

/-- Model of `meta_time_codes` (fetch_kas.py lines 295-304): values of the
first variable with the given code, reversed when its `time` flag is
literally `true` (Python `is True`). -/
def meta_time_codes (meta : Meta) (time_code : String) : List String :=
  match (meta_variables meta).find? (fun v => v.code == time_code) with
  | Option.none => []
  | some v => if v.time = some true then v.values.reverse else v.values

-- ---------------------------------------------------------------------------
-- JSON-stat stride arithmetic
-- ---------------------------------------------------------------------------

/-- The stride computation of `fetch_energy_monthly` / `fetch_imports_by_partner`
(fetch_kas.py lines 430-433 and 523-525):
`strides = [1]*n; for i in range(n-2, -1, -1): strides[i] = strides[i+1]*sizes[i+1]`. -/
def strides : List Nat → List Nat
  | [] => []
  | [_] => [1]
  | _ :: b :: rest => ((strides (b :: rest)).headD 1 * b) :: strides (b :: rest)

/-- The `pos` helper (lines 439-440 and 530-531):
`sum(c * s for c, s in zip(coords, strides))`. -/
def pos (coords strideList : List Nat) : Nat :=
  (List.zipWith (fun c s => c * s) coords strideList).sum

/-- Reference definition of the row-major linear index of the cell with the
given coordinates in a cube with the given dimension sizes.  This is the
spec-side notion the code's stride arithmetic is compared against. -/
def rowMajorIndex : List Nat → List Nat → Nat
  | c :: cs, _ :: ss => c * ss.prod + rowMajorIndex cs ss
  | _, _ => 0

-- ---------------------------------------------------------------------------
-- HTTP layer: base fallback, rate-limit sleep
-- ---------------------------------------------------------------------------

def hexDigitChar (n : Nat) : Char :=
  if n < 10 then Char.ofNat ('0'.toNat + n) else Char.ofNat ('A'.toNat + (n - 10))

/-- Characters never percent-encoded by `urllib.parse.quote(p, safe="")`. -/
def quoteSafeChar (c : Char) : Bool :=
  c.isAlphanum || c = '_' || c = '.' || c = '-' || c = '~'

/-- Model of `urllib.parse.quote(s, safe="")`: percent-encode every UTF-8
byte outside the unreserved set. -/
def pyQuote (s : String) : String :=
  ⟨(s.toUTF8.toList.map (fun b =>
      let c := Char.ofNat b.toNat
      if b.toNat < 128 && quoteSafeChar c then [c]
      else ['%', hexDigitChar (b.toNat / 16), hexDigitChar (b.toNat % 16)])).flatten⟩

/-- Python `s.rstrip("/")`. -/
def pyRstripSlash (s : String) : String :=
  ⟨(s.data.reverse.dropWhile (fun x => x = '/')).reverse⟩

/-- Model of `api_join` (fetch_kas.py lines 229-231):
`"/".join([base.rstrip("/"), lang] + [quote(p, safe="") for p in parts])`.
The tail list is non-empty, so the single join is split as below. -/
def api_join (base : String) (parts : List String) (lang : String) : String :=
  pyRstripSlash base ++ "/" ++ String.intercalate "/" (lang :: parts.map pyQuote)

def firstBase : String := "https://askdata.rks-gov.net/PXWeb/api/v1"

def secondBase : String := "https://askdata.rks-gov.net/api/v1"

/-- `API_BASES` (fetch_kas.py lines 58-61). -/
def API_BASES : List String := [firstBase, secondBase]

/-- A GET response as the script reads it (`status_code`, `reason`, parsed
JSON body). -/
structure GetResp where
  status : Nat
  reason : String
  json : Meta

/-- A POST response as the script reads it (`status_code`, `text`, parsed
JSON body). -/
structure PostResp where
  status : Nat
  text : String
  json : Cube

/-- `requests`' `Response.ok`: the status code is below 400. -/
def respOk (status : Nat) : Bool := status < 400

/-- Observable effects of the HTTP layer: requests and sleeps. -/
inductive NetEvent where
  | get (url : String) : NetEvent
  | post (url : String) : NetEvent
  | sleep (seconds : Nat) : NetEvent
deriving DecidableEq

/-- Python `s[:n]`. -/
def pyTake (n : Nat) (s : String) : String := ⟨s.data.take n⟩

/-- The loop body of `px_get_meta` (fetch_kas.py lines 236-245) over a list of
remaining bases, threading `last_err`.  Returns the emitted events and the
result (`Except.error` models `raise PxError`). -/
def px_get_meta_go (net : String → GetResp) (parts : List String) (lang : String) :
    List String → Option String → List NetEvent × Except String Meta
  | [], lastErr => ([], Except.error (lastErr.getD "Meta fetch failed"))
  | base :: rest, _lastErr =>
      let url := api_join base parts lang
      let r := net url
      if respOk r.status then ([NetEvent.get url], Except.ok r.json)
      else
        let msg := "GET " ++ url ++ " -> " ++ toString r.status ++ " " ++ r.reason
        let res := px_get_meta_go net parts lang rest (some msg)
        (NetEvent.get url :: res.1, res.2)

/-- Model of `px_get_meta` (fetch_kas.py lines 236-245). -/
def px_get_meta_run (net : String → GetResp) (parts : List String) (lang : String) :
    List NetEvent × Except String Meta :=
  px_get_meta_go net parts lang API_BASES Option.none

/-- The loop body of `px_post_data` (fetch_kas.py lines 247-260): on a
non-ok response record the failure, sleep one second when the status is 429,
then move to the next base.  The request body only affects what the server
sees, so it is folded into the `net` oracle. -/
def px_post_data_go (net : String → PostResp) (parts : List String) (lang : String) :
    List String → Option String → List NetEvent × Except String Cube
  | [], lastErr => ([], Except.error (lastErr.getD "Data fetch failed"))
  | base :: rest, _lastErr =>
      let url := api_join base parts lang
      let r := net url
      if respOk r.status then ([NetEvent.post url], Except.ok r.json)
      else
        let msg := "POST " ++ url ++ " -> " ++ toString r.status ++ " " ++ pyTake 200 r.text
        let here := if r.status = 429 then [NetEvent.post url, NetEvent.sleep 1]
                    else [NetEvent.post url]
        let res := px_post_data_go net parts lang rest (some msg)
        (here ++ res.1, res.2)

/-- Model of `px_post_data` (fetch_kas.py lines 247-260). -/
def px_post_data_run (net : String → PostResp) (parts : List String) (lang : String) :
    List NetEvent × Except String Cube :=
  px_post_data_go net parts lang API_BASES Option.none

def isSleepEvent : NetEvent → Bool
  | NetEvent.sleep _ => true
  | _ => false

def postUrls (evs : List NetEvent) : List String :=
  evs.filterMap (fun e => match e with | NetEvent.post u => some u | _ => Option.none)

def getUrls (evs : List NetEvent) : List String :=
  evs.filterMap (fun e => match e with | NetEvent.get u => some u | _ => Option.none)

-- ---------------------------------------------------------------------------
-- Response-shape dispatch of the data fetchers
-- ---------------------------------------------------------------------------

/-- Which processing branch a fetcher takes for a data response. -/
inductive ShapeBranch where
  | jsonStat : ShapeBranch
  | valueList : ShapeBranch
  | classicTable : ShapeBranch
  | pxFailure : ShapeBranch
  | nullSeries : ShapeBranch
deriving DecidableEq

/-- Shape dispatch of `fetch_energy_monthly` (lines 428-456) and
`fetch_imports_by_partner` (lines 520-548): JSON-stat when both `"value"` and
`"dimension"` are present, else the classic row table, else `raise PxError`. -/
def stat_or_table_shape (parse : String → Option ℚ) (dimOrder : List String)
    (cube : Cube) : ShapeBranch :=
  if cube.value?.isSome && cube.dimension?.isSome then ShapeBranch.jsonStat
  else
    match table_lookup parse cube (some dimOrder) with
    | some _ => ShapeBranch.classicTable
    | Option.none => ShapeBranch.pxFailure

/-- Shape dispatch of `fetch_fuel_table` (lines 596-600), `fetch_tourism_region`
(lines 663-666) and `fetch_tourism_country` (lines 738-741): only the classic
row table is accepted; anything else is `raise PxError`. -/
def table_only_shape (parse : String → Option ℚ) (dimOrder : List String)
    (cube : Cube) : ShapeBranch :=
  match table_lookup parse cube (some dimOrder) with
  | some _ => ShapeBranch.classicTable
  | Option.none => ShapeBranch.pxFailure

/-- Shape dispatch of `fetch_trade_monthly` (lines 357-371): a non-empty flat
`"value"` list is consumed directly, else the classic row table, else the
series is built from an empty coercion list (no exception). -/
def trade_shape (parse : String → Option ℚ) (dimOrder : List String)
    (cube : Cube) : ShapeBranch :=
  if cube.value?.getD [] ≠ [] then ShapeBranch.valueList
  else
    match table_lookup parse cube (some dimOrder) with
    | some _ => ShapeBranch.classicTable
    | Option.none => ShapeBranch.nullSeries

-- ---------------------------------------------------------------------------
-- The trade output records
-- ---------------------------------------------------------------------------

/-- A record of kas_imports_monthly.json.  It has exactly the two fields
`period` and `imports_th_eur` (lines 372-378). -/
structure TradeRecord where
  period : String
  imports_th_eur : Option JNum
deriving DecidableEq

/-- The series built by `fetch_trade_monthly` (lines 372-378):
one record per selected time code, in order;
`coerced[i] if i < len(coerced) else None` feeds `tidy_number`. -/
def tradeSeries (pick : List String) (coerced : List (Option ℚ)) : List TradeRecord :=
  (List.range pick.length).map (fun i =>
    { period := normalize_ym (pick.getD i ""),
      imports_th_eur := tidy_number ((coerced.get? i).getD Option.none) })

-- ---------------------------------------------------------------------------
-- CLI argument handling and the per-table guards of main
-- ---------------------------------------------------------------------------

/-- The parsed CLI arguments of `main` (fetch_kas.py lines 777-784). -/
structure Args where
  out : Option String
  months : Option Int
  all : Bool
  partners : Option String
  no_partners : Bool
deriving DecidableEq

/-- `months = None if args.all else (args.months or 24)` (line 790).
Python `or` treats both `None` and `0` as missing. -/
def monthsOf (a : Args) : Option Int :=
  if a.all then Option.none
  else some (match a.months with
    | some m => if m ≠ 0 then m else 24
    | Option.none => 24)

/-- Python `l[start:]` for an integer `start`. -/
def pySliceFrom {α : Type} (start : Int) (l : List α) : List α :=
  if start < 0 then l.drop (l.length - (-start).toNat) else l.drop start.toNat

/-- The time selection of every fetcher (e.g. line 349):
`pick = all_months[-months:] if months else all_months`. -/
def pickMonths {α : Type} (months : Option Int) (all_months : List α) : List α :=
  match months with
  | some m => if m = 0 then all_months else pySliceFrom (-m) all_months
  | Option.none => all_months

/-- The partner-list computation of `main` (lines 791-798). -/
def partnersOf (a : Args) : Option (List String) :=
  if a.no_partners then Option.none
  else
    match a.partners with
    | some s => some ((s.splitOn ",").filter (fun p => pyStrip p ≠ ""))
    | Option.none => some ["ALL"]

/-- `main` calls `fetch_imports_by_partner` only under
`if partners is not None:` (line 831). -/
def partnerFetchRuns (partners : Option (List String)) : Bool := partners.isSome

/-- The tables `main` fetches, in program order. -/
inductive TableId where
  | trade | energy | gasoline | diesel | lng | jet
  | tourismRegion | tourismCountry | partner
deriving DecidableEq

/-- Whether a table's fetch raises `PxError` or some other exception. -/
inductive ExcKind where
  | px | other
deriving DecidableEq

/-- The exit code assigned by the `__main__` wrapper (lines 885-893):
2 for `PxError`, 1 for any other exception. -/
def exitCodeFor : ExcKind → Nat
  | ExcKind.px => 2
  | ExcKind.other => 1

/-- Outcome of a run of `main`: which tables were attempted, which failures
were caught and logged by a per-table guard, and the process exit code. -/
structure RunResult where
  attempted : List TableId
  logged : List TableId
  exit : Nat
deriving DecidableEq

/-- The tables whose fetch `main` wraps in `try/except` (lines 812-835):
the four fuel tables, the two tourism tables, and — only when a partner
list is present — the partner table. -/
def guardedTables (partnersPresent : Bool) : List TableId :=
  [TableId.gasoline, TableId.diesel, TableId.lng, TableId.jet,
   TableId.tourismRegion, TableId.tourismCountry] ++
    (if partnersPresent then [TableId.partner] else [])

/-- Control-flow model of `main` plus its `__main__` wrapper (lines 777-893).
`outcome t = some e` means table `t`'s fetch raises an exception of kind `e`.
`fetch_trade_monthly` and `fetch_energy_monthly` are called outside any
guard, so their exceptions propagate to the wrapper and set the exit code;
the remaining fetches are individually guarded, their failures are printed
and the run continues (the final manifest write is assumed to succeed). -/
def runMain (outcome : TableId → Option ExcKind) (partnersPresent : Bool) : RunResult :=
  match outcome TableId.trade with
  | some e => { attempted := [TableId.trade], logged := [], exit := exitCodeFor e }
  | Option.none =>
      match outcome TableId.energy with
      | some e =>
          { attempted := [TableId.trade, TableId.energy], logged := [],
            exit := exitCodeFor e }
      | Option.none =>
          let g := guardedTables partnersPresent
          { attempted := TableId.trade :: TableId.energy :: g,
            logged := g.filter (fun t => (outcome t).isSome),
            exit := 0 }

-- ---------------------------------------------------------------------------
-- Sanity checks on concrete inputs
-- ---------------------------------------------------------------------------

example : normalize_ym "2025M8" = "2025-08" := by decide
example : normalize_ym "202508" = "2025-08" := by decide
example : normalize_ym "2025-08" = "2025-08" := by decide
example : normalize_ym "total" = "total" := by decide
example : coerce_number (fun _ => Option.none) (PyVal.str " .. ") = Option.none := by decide
example : tidy_number (some (6 : ℚ)) = some (JNum.int 6) := by decide
example : strides [2, 3, 4] = [12, 4, 1] := by decide
example : pos [1, 2, 3] (strides [2, 3, 4]) = 23 := by decide
example : pickMonths (some 3) ["a", "b", "c", "d", "e"] = ["c", "d", "e"] := by decide
example : monthsOf ⟨Option.none, some 0, false, Option.none, false⟩ = some 24 := by decide

-- ---------------------------------------------------------------------------
-- C3: numeric coercion
-- ---------------------------------------------------------------------------

/-- C3: `coerce_number` returns `None` for the input `None` and for any
string that is empty or a placeholder marker after stripping; it returns
`float(value)` for int and float inputs; for any other string it removes
non-breaking spaces and commas and returns the parsed float (`parse` models
Python `float`, returning `none` exactly when `float` would raise
`ValueError`, which the source catches).  The model is a total function, so
`coerce_number` never raises. -/
theorem coerce_number_spec (parse : String → Option ℚ) :
    coerce_number parse PyVal.none = Option.none ∧
    (∀ i : Int, coerce_number parse (PyVal.int i) = some (i : ℚ)) ∧
    (∀ q : ℚ, coerce_number parse (PyVal.float q) = some q) ∧
    (∀ v : String, pyStrip v = "" ∨ pyStrip v ∈ missingMarkers →
      coerce_number parse (PyVal.str v) = Option.none) ∧
    (∀ v : String, ¬(pyStrip v = "" ∨ pyStrip v ∈ missingMarkers) →
      coerce_number parse (PyVal.str v) =
        parse (((pyStrip v).replace "\u00A0" "").replace "," "")) := by
  refine ⟨rfl, fun i => rfl, fun q => rfl, fun v h => ?_, fun v h => ?_⟩
  · simp only [coerce_number]
    rw [if_pos h]
  · simp only [coerce_number]
    rw [if_neg h]

/-- Witness for C3 at concrete inputs: a marker string coerces to `None`,
and a non-marker string is handed to the float parser. -/
theorem coerce_number_spec_witness :
    coerce_number (fun _ => Option.none) (PyVal.str " .. ") = Option.none ∧
    coerce_number (fun _ => some 7) (PyVal.str "x1") = some 7 := by
  exact ⟨(coerce_number_spec (fun _ => Option.none)).2.2.2.1 " .. " (Or.inr (by decide)),
    (coerce_number_spec (fun _ => some 7)).2.2.2.2 "x1" (by decide)⟩

-- ---------------------------------------------------------------------------
-- C2: stride arithmetic for JSON-stat cubes
-- ---------------------------------------------------------------------------

theorem strides_cons (x : Nat) (xs : List Nat) :
    strides (x :: xs) = xs.prod :: strides xs := by
  induction xs generalizing x with
  | nil => rfl
  | cons b rest ih =>
      simp only [strides, ih b, List.headD_cons, List.prod_cons]
      simp [Nat.mul_comm]

theorem strides_length (s : List Nat) : (strides s).length = s.length := by
  induction s with
  | nil => rfl
  | cons x xs ih => rw [strides_cons]; simp [ih]

theorem strides_getD (s : List Nat) :
    ∀ i, i < s.length → (strides s).getD i 0 = (s.drop (i + 1)).prod := by
  induction s with
  | nil => intro i h; simp at h
  | cons x xs ih =>
      intro i h
      rw [strides_cons]
      cases i with
      | zero => simp
      | succ n =>
          simp only [List.getD_cons_succ, List.drop_succ_cons]
          exact ih n (by simpa using h)

theorem drop_getD_cons (l : List Nat) :
    ∀ i, i < l.length → l.drop i = l.getD i 0 :: l.drop (i + 1) := by
  induction l with
  | nil => intro i h; simp at h
  | cons x xs ih =>
      intro i h
      cases i with
      | zero => simp
      | succ n =>
          simp only [List.drop_succ_cons, List.getD_cons_succ]
          exact ih n (by simpa using h)

theorem pos_eq_rowMajor {coords size : List Nat}
    (h : List.Forall₂ (fun a b => a < b) coords size) :
    pos coords (strides size) = rowMajorIndex coords size := by
  induction h with
  | nil => rfl
  | @cons c s cs ss hcs hrest ih =>
      rw [strides_cons]
      simp only [pos, List.zipWith_cons_cons, List.sum_cons, rowMajorIndex]
      exact congrArg (fun t => c * ss.prod + t) ih

theorem rowMajor_lt {coords size : List Nat}
    (h : List.Forall₂ (fun a b => a < b) coords size) :
    rowMajorIndex coords size < size.prod := by
  induction h with
  | nil => simp [rowMajorIndex]
  | @cons c s cs ss hcs hrest ih =>
      simp only [rowMajorIndex, List.prod_cons]
      calc c * ss.prod + rowMajorIndex cs ss
          < c * ss.prod + ss.prod := by omega
        _ = (c + 1) * ss.prod := by ring
        _ ≤ s * ss.prod := Nat.mul_le_mul_right _ hcs

/-- C2: the stride computation satisfies `strides[n-1] = 1` and
`strides[i] = strides[i+1] * size[i+1]`, each stride is the product of the
later sizes, and for in-range coordinates `pos` is exactly the row-major
linear index of the cell, strictly below the product of all sizes. -/
theorem jsonstat_strides_spec (size coords : List Nat)
    (h : List.Forall₂ (fun a b => a < b) coords size) :
    (strides size).length = size.length ∧
    (size ≠ [] → (strides size).getD (size.length - 1) 0 = 1) ∧
    (∀ i, i + 1 < size.length →
      (strides size).getD i 0 = (strides size).getD (i + 1) 0 * size.getD (i + 1) 0) ∧
    (∀ i, i < size.length → (strides size).getD i 0 = (size.drop (i + 1)).prod) ∧
    pos coords (strides size) = rowMajorIndex coords size ∧
    pos coords (strides size) < size.prod := by
  refine ⟨strides_length size, ?_, ?_, strides_getD size, pos_eq_rowMajor h, ?_⟩
  · intro hne
    have hlen : 0 < size.length := List.length_pos.mpr hne
    have h1 : size.length - 1 < size.length := by omega
    rw [strides_getD size _ h1]
    have h2 : size.length - 1 + 1 = size.length := by omega
    rw [h2, List.drop_length, List.prod_nil]
  · intro i hi
    have hi1 : i < size.length := by omega
    rw [strides_getD size i hi1, strides_getD size (i + 1) hi,
      drop_getD_cons size (i + 1) hi, List.prod_cons]
    exact Nat.mul_comm _ _
  · rw [pos_eq_rowMajor h]
    exact rowMajor_lt h

/-- Witness for C2 at a concrete cube layout: sizes `[2, 3, 4]`,
coordinates `[1, 2, 3]`. -/
theorem jsonstat_strides_spec_witness :
    pos [1, 2, 3] (strides [2, 3, 4]) = rowMajorIndex [1, 2, 3] [2, 3, 4] ∧
    pos [1, 2, 3] (strides [2, 3, 4]) < ([2, 3, 4] : List Nat).prod := by
  have h : List.Forall₂ (fun a b => a < b) [1, 2, 3] [2, 3, 4] :=
    List.Forall₂.cons (by omega)
      (List.Forall₂.cons (by omega) (List.Forall₂.cons (by omega) List.Forall₂.nil))
  exact ⟨(jsonstat_strides_spec [2, 3, 4] [1, 2, 3] h).2.2.2.2.1,
    (jsonstat_strides_spec [2, 3, 4] [1, 2, 3] h).2.2.2.2.2⟩

-- ---------------------------------------------------------------------------
-- C8: month-code normalisation
-- ---------------------------------------------------------------------------

theorem takeWhile_append_stop (p : Char → Bool) (l1 l2 : List Char) (c : Char)
    (h1 : ∀ x ∈ l1, p x = true) (h2 : p c = false) :
    (l1 ++ c :: l2).takeWhile p = l1 ∧ (l1 ++ c :: l2).dropWhile p = c :: l2 := by
  induction l1 with
  | nil =>
      constructor
      · simp [List.takeWhile_cons, h2]
      · simp [List.dropWhile_cons, h2]
  | cons a as ih =>
      have ha : p a = true := h1 a (by simp)
      have ih2 := ih (fun x hx => h1 x (by simp [hx]))
      constructor
      · simp [List.takeWhile_cons, ha, ih2.1]
      · simp [List.dropWhile_cons, ha, ih2.2]

theorem pyZfill_length_two (m : String) (h1 : pyIsDigitStr m = true)
    (h2 : m.length ≤ 2) : (pyZfill m 2).length = 2 := by
  cases hm : m.data with
  | nil =>
      exfalso
      simp [pyIsDigitStr, hm] at h1
  | cons c cs =>
      have h1s : ¬m.data = [] ∧ ∀ x ∈ m.data, x.isDigit = true := by
        simpa [pyIsDigitStr] using h1
      have hc : c.isDigit = true := h1s.2 c (by rw [hm]; simp)
      have hsign : ¬(c = '+' ∨ c = '-') := by
        rintro (rfl | rfl) <;> simp at hc
      have hlen : m.length = cs.length + 1 := by
        show m.data.length = cs.length + 1
        rw [hm]; rfl
      simp only [pyZfill, hm, hsign, if_false]
      show (List.replicate (2 - m.length) '0' ++ c :: cs).length = 2
      rw [List.length_append, List.length_replicate, List.length_cons]
      omega

/-- C8: `normalize_ym` maps a six-character all-digit code `YYYYMM` to
`YYYY-MM`; any other code containing `M` to the part before the first `M`,
a hyphen, and the part after it zero-padded to two digits; leaves a
seven-character code with `-` as fifth character unchanged; and leaves every
other code unchanged.  Consequently codes of the form `YYYYMm` (four digits,
an `M`, one or two digits) normalise to a seven-character `YYYY-MM` period. -/
theorem normalize_ym_spec (code : String) :
    (pyIsDigitStr code = true → code.length = 6 →
      normalize_ym code =
        (⟨code.data.take 4⟩ : String) ++ "-" ++ (⟨code.data.drop 4⟩ : String)) ∧
    (¬(pyIsDigitStr code = true ∧ code.length = 6) → code.data.contains 'M' = true →
      normalize_ym code =
        (⟨code.data.takeWhile (fun c => c ≠ 'M')⟩ : String) ++ "-" ++
          pyZfill (⟨(code.data.dropWhile (fun c => c ≠ 'M')).drop 1⟩ : String) 2) ∧
    (¬(pyIsDigitStr code = true ∧ code.length = 6) → code.data.contains 'M' = false →
      code.length = 7 → code.data.getD 4 ' ' = '-' → normalize_ym code = code) ∧
    (¬(pyIsDigitStr code = true ∧ code.length = 6) → code.data.contains 'M' = false →
      ¬(code.length = 7 ∧ code.data.getD 4 ' ' = '-') → normalize_ym code = code) ∧
    (∀ y m : String, pyIsDigitStr y = true → y.length = 4 →
      pyIsDigitStr m = true → m.length ≤ 2 →
      normalize_ym (y ++ "M" ++ m) = y ++ "-" ++ pyZfill m 2 ∧
        (normalize_ym (y ++ "M" ++ m)).length = 7) := by
  refine ⟨?_, ?_, ?_, ?_, ?_⟩
  · intro h1 h2
    simp only [normalize_ym]
    rw [if_pos ⟨h1, h2⟩]
    have hd : code.data.length = 6 := h2
    have : (code.data.drop 4).take 2 = code.data.drop 4 := by
      apply List.take_of_length_le
      rw [List.length_drop, hd]
    rw [this]
  · intro h1 h2
    simp only [normalize_ym]
    rw [if_neg h1, if_pos h2]
  · intro h1 h2 h3 h4
    have hc : ¬(code.data.contains 'M' = true) := by
      rw [h2]; exact Bool.false_ne_true
    simp only [normalize_ym]
    rw [if_neg h1, if_neg hc, if_pos ⟨h3, h4⟩]
  · intro h1 h2 h3
    have hc : ¬(code.data.contains 'M' = true) := by
      rw [h2]; exact Bool.false_ne_true
    simp only [normalize_ym]
    rw [if_neg h1, if_neg hc, if_neg h3]
  · intro y m hy hly hm hlm
    have hdata : (y ++ "M" ++ m).data = y.data ++ 'M' :: m.data := by
      show (y.data ++ "M".data) ++ m.data = y.data ++ 'M' :: m.data
      rw [List.append_assoc]
      rfl
    have hys : ¬y.data = [] ∧ ∀ x ∈ y.data, x.isDigit = true := by
      simpa [pyIsDigitStr] using hy
    have hynotM : ∀ x ∈ y.data, (fun c => (c ≠ 'M' : Bool)) x = true := by
      intro x hx
      have hxd : x.isDigit = true := hys.2 x hx
      simp only [decide_eq_true_eq]
      rintro rfl
      simp at hxd
    have hM : (fun c => (c ≠ 'M' : Bool)) 'M' = false := by simp
    have htw := takeWhile_append_stop (fun c => (c ≠ 'M' : Bool)) y.data m.data 'M' hynotM hM
    have hnd : ¬(pyIsDigitStr (y ++ "M" ++ m) = true ∧ (y ++ "M" ++ m).length = 6) := by
      rintro ⟨ha, -⟩
      have has : ¬(y ++ "M" ++ m).data = [] ∧
          ∀ x ∈ (y ++ "M" ++ m).data, x.isDigit = true := by
        simp [pyIsDigitStr] at ha
        
      have hMd : Char.isDigit 'M' = true := has.2 'M' (by rw [hdata]; simp)
      simp at hMd
    have hcont : (y ++ "M" ++ m).data.contains 'M' = true := by
      rw [hdata]
      simp [List.contains, List.elem_eq_mem]
    have heq : normalize_ym (y ++ "M" ++ m) = y ++ "-" ++ pyZfill m 2 := by
      simp only [normalize_ym]
      rw [if_neg hnd, if_pos hcont, hdata, htw.1, htw.2]
      rfl
    refine ⟨heq, ?_⟩
    rw [heq, String.length_append, String.length_append,
      pyZfill_length_two m hm hlm, hly]
    rfl

/-- Witness for C8 at concrete codes: `'202508'`, `'2025M8'`, `'2025-08'`
and a code in none of the recognised shapes. -/
theorem normalize_ym_spec_witness :
    normalize_ym "202508" =
      (⟨("202508" : String).data.take 4⟩ : String) ++ "-" ++
        (⟨("202508" : String).data.drop 4⟩ : String) ∧
    normalize_ym "2025M8" = "2025" ++ "-" ++ pyZfill "8" 2 ∧
    normalize_ym "2025-08" = "2025-08" ∧
    normalize_ym "total" = "total" := by
  refine ⟨(normalize_ym_spec "202508").1 (by decide) (by decide), ?_, ?_, ?_⟩
  · exact ((normalize_ym_spec "dummy").2.2.2.2 "2025" "8" (by decide) (by decide)
      (by decide) (by decide)).1
  · exact (normalize_ym_spec "2025-08").2.2.1 (by decide) (by decide) (by decide) (by decide)
  · exact (normalize_ym_spec "total").2.2.2.1 (by decide) (by decide) (by decide)

-- ---------------------------------------------------------------------------
-- C9: totality of lookup_table_value
-- ---------------------------------------------------------------------------

theorem py_index_none_of_not_mem (l : List String) (x : String) (h : x ∉ l) :
    py_index l x = Option.none := by
  induction l with
  | nil => rfl
  | cons y ys ih =>
      have hxy : ¬(y = x) := fun he => h (he ▸ List.mem_cons_self y ys)
      simp only [py_index]
      rw [if_neg hxy, ih (fun hm => h (List.mem_cons_of_mem y hm))]
      rfl

theorem assignLoop_none (dc : List String) :
    ∀ (ps : List (String × String)) (key : List (Option String)),
      (∃ p ∈ ps, p.1 ∉ dc) → assignLoop dc ps key = Option.none := by
  intro ps
  induction ps with
  | nil =>
      intro key h
      rcases h with ⟨p, hp, -⟩
      simp at hp
  | cons q rest ih =>
      intro key h
      simp only [assignLoop]
      cases hq : py_index dc q.1 with
      | none => rfl
      | some i =>
          rcases h with ⟨p, hp, hnm⟩
          rcases List.mem_cons.mp hp with rfl | hmem
          · rw [py_index_none_of_not_mem dc p.1 hnm] at hq
            cases hq
          · exact ih (key.set i (some q.2)) ⟨p, hmem, hnm⟩

theorem getD_set_ne {α : Type} (l : List α) :
    ∀ (i j : Nat) (v d : α), i ≠ j → (l.set i v).getD j d = l.getD j d := by
  induction l with
  | nil => intro i j v d h; rfl
  | cons a as ih =>
      intro i j v d h
      cases i with
      | zero =>
          cases j with
          | zero => exact absurd rfl h
          | succ n => simp [List.set]
      | succ i2 =>
          cases j with
          | zero => simp [List.set]
          | succ n =>
              simp only [List.set, List.getD_cons_succ]
              exact ih i2 n v d (by omega)

theorem assignLoop_some_length (dc : List String) :
    ∀ (ps : List (String × String)) (key key2 : List (Option String)),
      assignLoop dc ps key = some key2 → key2.length = key.length := by
  intro ps
  induction ps with
  | nil =>
      intro key key2 h
      simp only [assignLoop] at h
      injection h with h2
      rw [← h2]
  | cons q rest ih =>
      intro key key2 h
      simp only [assignLoop] at h
      cases hq : py_index dc q.1 with
      | none => rw [hq] at h; cases h
      | some i =>
          rw [hq] at h
          have h2 := ih (key.set i (some q.2)) key2 h
          rwa [List.length_set] at h2

theorem assignLoop_filled (dc : List String) :
    ∀ (ps : List (String × String)) (key key2 : List (Option String)) (i : Nat),
      assignLoop dc ps key = some key2 →
      (key2.getD i Option.none).isSome = true →
      (key.getD i Option.none).isSome = true ∨ ∃ p ∈ ps, py_index dc p.1 = some i := by
  intro ps
  induction ps with
  | nil =>
      intro key key2 i h hs
      simp only [assignLoop] at h
      injection h with h2
      exact Or.inl (by rw [h2]; exact hs)
  | cons q rest ih =>
      intro key key2 i h hs
      simp only [assignLoop] at h
      cases hq : py_index dc q.1 with
      | none => rw [hq] at h; cases h
      | some j =>
          rw [hq] at h
          rcases ih (key.set j (some q.2)) key2 i h hs with hset | ⟨p, hp, hpi⟩
          · by_cases hij : j = i
            · subst hij
              exact Or.inr ⟨q, List.mem_cons_self q rest, hq⟩
            · left
              rwa [getD_set_ne key j i (some q.2) Option.none hij] at hset
          · exact Or.inr ⟨p, List.mem_cons_of_mem q hp, hpi⟩

theorem replicate_none_getD (n i : Nat) :
    ((List.replicate n (Option.none : Option String)).getD i Option.none) = Option.none := by
  induction n generalizing i with
  | zero => cases i <;> rfl
  | succ k ih =>
      cases i with
      | zero => rfl
      | succ j =>
          simp only [List.replicate, List.getD_cons_succ]
          exact ih j

theorem lookup_some_inv (dc : List String)
    (lookup : List (List String × Option ℚ)) (assignments : List (String × String))
    (v : ℚ) (h : lookup_table_value dc lookup assignments = some v) :
    coversAll dc assignments ∧
    ∃ key, assignLoop dc assignments (List.replicate dc.length Option.none) = some key ∧
      key.any (fun x => x.isNone) = false ∧
      dictGet lookup (key.filterMap id) = some (some v) := by
  unfold lookup_table_value at h
  cases hal : assignLoop dc assignments (List.replicate dc.length Option.none) with
  | none => rw [hal] at h; cases h
  | some key =>
      rw [hal] at h
      dsimp only at h
      by_cases hany : key.any (fun x => x.isNone) = true
      · rw [if_pos hany] at h; cases h
      · have hanyf : key.any (fun x => x.isNone) = false := by
          cases hh : key.any (fun x => x.isNone)
          · rfl
          · exact absurd hh hany
        rw [if_neg hany] at h
        cases hdg : dictGet lookup (key.filterMap id) with
        | none => rw [hdg] at h; cases h
        | some w =>
            rw [hdg] at h
            have hw : w = some v := h
            have hlen : key.length = dc.length := by
              have h2 := assignLoop_some_length dc assignments _ _ hal
              rwa [List.length_replicate] at h2
            constructor
            · intro i hi
              have hilen : i < key.length := by omega
              have hfill : (key.getD i Option.none).isSome = true := by
                cases hgi : key.get? i with
                | none =>
                    have h3 := List.get?_eq_none.mp hgi
                    omega
                | some x =>
                    have hxmem : x ∈ key := List.get?_mem hgi
                    have hxn := (List.any_eq_false.mp hanyf) x hxmem
                    rw [List.getD_eq_get?, hgi]
                    cases x with
                    | none => simp at hxn
                    | some w2 => rfl
              rcases assignLoop_filled dc assignments _ _ i hal hfill with hrep | hex
              · rw [replicate_none_getD] at hrep
                cases hrep
              · exact hex
            · exact ⟨key, rfl, hanyf, hdg.trans (congrArg some hw)⟩

/-- C9: `lookup_table_value` is total (the model is a total function, the
`ValueError` of `list.index` being caught) and returns `None` whenever some
assignment key is not among the dimension codes, whenever the assignments do
not fill every position, or whenever the assembled key tuple is absent from
the lookup dictionary; it returns a stored value only when every position is
filled by an assignment and the tuple is present. -/
theorem lookup_table_value_spec (dc : List String)
    (lookup : List (List String × Option ℚ)) (assignments : List (String × String)) :
    ((∃ p ∈ assignments, p.1 ∉ dc) →
      lookup_table_value dc lookup assignments = Option.none) ∧
    (¬ coversAll dc assignments →
      lookup_table_value dc lookup assignments = Option.none) ∧
    (∀ key, assignLoop dc assignments (List.replicate dc.length Option.none) = some key →
      key.any (fun x => x.isNone) = false →
      dictGet lookup (key.filterMap id) = Option.none →
      lookup_table_value dc lookup assignments = Option.none) ∧
    (∀ v : ℚ, lookup_table_value dc lookup assignments = some v →
      coversAll dc assignments ∧
      ∃ key, assignLoop dc assignments (List.replicate dc.length Option.none) = some key ∧
        dictGet lookup (key.filterMap id) = some (some v)) := by
  refine ⟨?_, ?_, ?_, ?_⟩
  · intro h
    unfold lookup_table_value
    rw [assignLoop_none dc assignments _ h]
  · intro hnc
    cases hres : lookup_table_value dc lookup assignments with
    | none => rfl
    | some v => exact absurd (lookup_some_inv dc lookup assignments v hres).1 hnc
  · intro key hal hany hdg
    unfold lookup_table_value
    rw [hal]
    dsimp only
    rw [if_neg (by rw [hany]; exact Bool.false_ne_true), hdg]
  · intro v h
    rcases lookup_some_inv dc lookup assignments v h with ⟨hc, key, hk, -, hdg⟩
    exact ⟨hc, key, hk, hdg⟩

/-- Witness for C9: an assignment with an unknown dimension code yields
`None`, and a fully assigned key returns the stored value. -/
theorem lookup_table_value_spec_witness :
    lookup_table_value ["a", "b"] [(["x", "y"], some (5 : ℚ))] [("c", "x")] =
      Option.none ∧
    (coversAll ["a", "b"] [("a", "x"), ("b", "y")] ∧
      ∃ key, assignLoop ["a", "b"] [("a", "x"), ("b", "y")]
          (List.replicate (["a", "b"] : List String).length Option.none) = some key ∧
        dictGet [(["x", "y"], some (5 : ℚ))] (key.filterMap id) = some (some 5)) := by
  refine ⟨?_, ?_⟩
  · exact (lookup_table_value_spec ["a", "b"] [(["x", "y"], some (5 : ℚ))]
      [("c", "x")]).1 ⟨("c", "x"), by simp, by decide⟩
  · exact (lookup_table_value_spec ["a", "b"] [(["x", "y"], some (5 : ℚ))]
      [("a", "x"), ("b", "y")]).2.2.2 5 (by decide)

-- ---------------------------------------------------------------------------
-- C10: chronological ordering of time codes
-- ---------------------------------------------------------------------------

/-- C10: `meta_time_codes` returns `[]` when no variable has the given code;
when the (first) variable with that code exists, its values are reversed
exactly when the variable's `time` flag is literally `true`, and kept in the
original order otherwise. -/
theorem meta_time_codes_spec (meta : Meta) (c : String) :
    ((∀ v ∈ meta_variables meta, v.code ≠ c) → meta_time_codes meta c = []) ∧
    (∀ v, (meta_variables meta).find? (fun x => x.code == c) = some v →
      meta_time_codes meta c =
        if v.time = some true then v.values.reverse else v.values) := by
  constructor
  · intro h
    have hf : (meta_variables meta).find? (fun x => x.code == c) = Option.none := by
      apply List.find?_eq_none.mpr
      intro x hx
      simpa using h x hx
    simp only [meta_time_codes, hf]
  · intro v hv
    simp only [meta_time_codes, hv]

/-- Witness for C10: a time-flagged variable is reversed, an absent code
yields the empty list. -/
theorem meta_time_codes_spec_witness :
    meta_time_codes ⟨"t", [⟨"T", "", ["a", "b"], [], some true⟩]⟩ "T" = ["b", "a"] ∧
    meta_time_codes ⟨"t", [⟨"T", "", ["a", "b"], [], some true⟩]⟩ "X" = [] := by
  constructor
  · exact ((meta_time_codes_spec ⟨"t", [⟨"T", "", ["a", "b"], [], some true⟩]⟩ "T").2
      ⟨"T", "", ["a", "b"], [], some true⟩ (by decide)).trans (by decide)
  · exact (meta_time_codes_spec ⟨"t", [⟨"T", "", ["a", "b"], [], some true⟩]⟩ "X").1
      (by decide)

-- ---------------------------------------------------------------------------
-- C6: the only retry/backoff behaviour
-- ---------------------------------------------------------------------------

theorem api_join_ne (parts : List String) (lang : String) :
    api_join firstBase parts lang ≠ api_join secondBase parts lang := by
  intro h
  have h2 := congrArg String.length h
  simp only [api_join, String.length_append] at h2
  have e1 : (pyRstripSlash firstBase).length = 40 := by decide
  have e2 : (pyRstripSlash secondBase).length = 34 := by decide
  omega

theorem px_post_go_spec (net : String → PostResp) (parts : List String) (lang : String) :
    ∀ (bases : List String) (le : Option String),
      (∀ n, NetEvent.sleep n ∈ (px_post_data_go net parts lang bases le).1 → n = 1) ∧
      ((px_post_data_go net parts lang bases le).1.filter isSleepEvent).length =
        ((postUrls (px_post_data_go net parts lang bases le).1).filter
          (fun u => (net u).status = 429)).length ∧
      ∃ bs : List String, bs.Sublist bases ∧
        postUrls (px_post_data_go net parts lang bases le).1 =
          bs.map (fun b => api_join b parts lang) := by
  intro bases
  induction bases with
  | nil =>
      intro le
      refine ⟨fun n hn => absurd hn (by simp [px_post_data_go]), by rfl,
        [], List.nil_sublist _, rfl⟩
  | cons b rest ih =>
      intro le
      by_cases hok : respOk (net (api_join b parts lang)).status = true
      · have hred : px_post_data_go net parts lang (b :: rest) le =
            ([NetEvent.post (api_join b parts lang)],
              Except.ok (net (api_join b parts lang)).json) := by
          simp only [px_post_data_go]
          rw [if_pos hok]
        rw [hred]
        refine ⟨fun n hn => ?_, ?_, [b], ?_, ?_⟩
        · simp at hn
        · have h429 : ¬((net (api_join b parts lang)).status = 429) := by
            intro hc
            simp [respOk, hc] at hok
          simp [postUrls, isSleepEvent, h429]
        · exact List.Sublist.cons₂ b (List.nil_sublist rest)
        · simp [postUrls, isSleepEvent]
      · have hokf : respOk (net (api_join b parts lang)).status = false := by
          cases hh : respOk (net (api_join b parts lang)).status
          · rfl
          · exact absurd hh hok
        have H := ih (some ("POST " ++ api_join b parts lang ++ " -> " ++
          toString (net (api_join b parts lang)).status ++ " " ++
          pyTake 200 (net (api_join b parts lang)).text))
        obtain ⟨H1, H2, bs, hbs, hpu⟩ := H
        by_cases h429 : (net (api_join b parts lang)).status = 429
        · have hred : (px_post_data_go net parts lang (b :: rest) le).1 =
              [NetEvent.post (api_join b parts lang), NetEvent.sleep 1] ++
                (px_post_data_go net parts lang rest
                  (some ("POST " ++ api_join b parts lang ++ " -> " ++
                    toString (net (api_join b parts lang)).status ++ " " ++
                    pyTake 200 (net (api_join b parts lang)).text))).1 := by
            simp only [px_post_data_go]
            rw [if_neg hok, if_pos h429]
          rw [hred]
          refine ⟨fun n hn => ?_, ?_, b :: bs, List.Sublist.cons₂ b hbs, ?_⟩
          · rcases List.mem_append.mp hn with hh | hh
            · simp at hh
              exact hh
            · exact H1 n hh
          · have hfs : List.filter isSleepEvent
                ([NetEvent.post (api_join b parts lang), NetEvent.sleep 1]) =
                  [NetEvent.sleep 1] := by rfl
            have hcond : decide ((net (api_join b parts lang)).status = 429) = true :=
              decide_eq_true h429
            rw [List.filter_append, hfs]
            have hpu2 : postUrls ([NetEvent.post (api_join b parts lang),
                NetEvent.sleep 1] ++ (px_post_data_go net parts lang rest
                  (some ("POST " ++ api_join b parts lang ++ " -> " ++
                    toString (net (api_join b parts lang)).status ++ " " ++
                    pyTake 200 (net (api_join b parts lang)).text))).1) =
                api_join b parts lang :: postUrls (px_post_data_go net parts lang rest
                  (some ("POST " ++ api_join b parts lang ++ " -> " ++
                    toString (net (api_join b parts lang)).status ++ " " ++
                    pyTake 200 (net (api_join b parts lang)).text))).1 := by
              simp [postUrls]
            rw [hpu2, List.filter_cons, if_pos hcond]
            simp only [List.length_append, List.length_cons, List.length_nil]
            omega
          · simp only [postUrls, List.filterMap_append] at hpu ⊢
            simp [hpu]
        · have hred : (px_post_data_go net parts lang (b :: rest) le).1 =
              [NetEvent.post (api_join b parts lang)] ++
                (px_post_data_go net parts lang rest
                  (some ("POST " ++ api_join b parts lang ++ " -> " ++
                    toString (net (api_join b parts lang)).status ++ " " ++
                    pyTake 200 (net (api_join b parts lang)).text))).1 := by
            simp only [px_post_data_go]
            rw [if_neg hok, if_neg h429]
          rw [hred]
          refine ⟨fun n hn => ?_, ?_, b :: bs, List.Sublist.cons₂ b hbs, ?_⟩
          · rcases List.mem_append.mp hn with hh | hh
            · simp at hh
            · exact H1 n hh
          · have hfs : List.filter isSleepEvent
                ([NetEvent.post (api_join b parts lang)]) = [] := by rfl
            have hcond : decide ((net (api_join b parts lang)).status = 429) = false :=
              decide_eq_false h429
            rw [List.filter_append, hfs]
            have hpu2 : postUrls ([NetEvent.post (api_join b parts lang)] ++
                (px_post_data_go net parts lang rest
                  (some ("POST " ++ api_join b parts lang ++ " -> " ++
                    toString (net (api_join b parts lang)).status ++ " " ++
                    pyTake 200 (net (api_join b parts lang)).text))).1) =
                api_join b parts lang :: postUrls (px_post_data_go net parts lang rest
                  (some ("POST " ++ api_join b parts lang ++ " -> " ++
                    toString (net (api_join b parts lang)).status ++ " " ++
                    pyTake 200 (net (api_join b parts lang)).text))).1 := by
              simp [postUrls]
            rw [hpu2, List.filter_cons, if_neg (by rw [hcond]; exact Bool.false_ne_true)]
            rw [List.nil_append]
            exact H2
          · simp only [postUrls, List.filterMap_append] at hpu ⊢
            simp [hpu]

theorem px_get_go_spec (net : String → GetResp) (parts : List String) (lang : String) :
    ∀ (bases : List String) (le : Option String),
      ((px_get_meta_go net parts lang bases le).1.filter isSleepEvent = []) ∧
      ∃ bs : List String, bs.Sublist bases ∧
        getUrls (px_get_meta_go net parts lang bases le).1 =
          bs.map (fun b => api_join b parts lang) := by
  intro bases
  induction bases with
  | nil => exact fun le => ⟨rfl, [], List.nil_sublist _, rfl⟩
  | cons b rest ih =>
      intro le
      by_cases hok : respOk (net (api_join b parts lang)).status = true
      · have hred : px_get_meta_go net parts lang (b :: rest) le =
            ([NetEvent.get (api_join b parts lang)],
              Except.ok (net (api_join b parts lang)).json) := by
          simp only [px_get_meta_go]
          rw [if_pos hok]
        rw [hred]
        exact ⟨by simp [isSleepEvent], [b],
          List.Sublist.cons₂ b (List.nil_sublist rest), by simp [getUrls]⟩
      · have H := ih (some ("GET " ++ api_join b parts lang ++ " -> " ++
          toString (net (api_join b parts lang)).status ++ " " ++
          (net (api_join b parts lang)).reason))
        obtain ⟨H1, bs, hbs, hgu⟩ := H
        have hred : (px_get_meta_go net parts lang (b :: rest) le).1 =
            NetEvent.get (api_join b parts lang) ::
              (px_get_meta_go net parts lang rest
                (some ("GET " ++ api_join b parts lang ++ " -> " ++
                  toString (net (api_join b parts lang)).status ++ " " ++
                  (net (api_join b parts lang)).reason))).1 := by
          simp only [px_get_meta_go]
          rw [if_neg hok]
        rw [hred]
        refine ⟨?_, b :: bs, List.Sublist.cons₂ b hbs, ?_⟩
        · simpa [isSleepEvent] using H1
        · simp only [getUrls, List.filterMap_cons] at hgu ⊢
          simp [hgu]

theorem map_api_join_nodup (parts : List String) (lang : String)
    (bs : List String) (hbs : bs.Sublist API_BASES) :
    (bs.map (fun b => api_join b parts lang)).Nodup := by
  have hnd : (API_BASES).Nodup := by decide
  refine List.Nodup.map_on ?_ (hbs.nodup hnd)
  intro x hx y hy hxy
  have hx2 : x ∈ API_BASES := hbs.subset hx
  have hy2 : y ∈ API_BASES := hbs.subset hy
  simp only [API_BASES, List.mem_cons, List.not_mem_nil, or_false] at hx2 hy2
  rcases hx2 with rfl | rfl <;> rcases hy2 with rfl | rfl
  · rfl
  · exact absurd hxy (api_join_ne parts lang)
  · exact absurd hxy.symm (api_join_ne parts lang)
  · rfl

/-- C6: the only sleep the HTTP layer performs is a single one-second sleep
by `px_post_data` after a POST receives HTTP 429 (one sleep per 429
response); no URL is ever requested twice, and `px_get_meta` never sleeps. -/
theorem px_retry_spec (netG : String → GetResp) (netP : String → PostResp)
    (parts : List String) (lang : String) :
    (∀ n, NetEvent.sleep n ∈ (px_post_data_run netP parts lang).1 → n = 1) ∧
    ((px_post_data_run netP parts lang).1.filter isSleepEvent).length =
      ((postUrls (px_post_data_run netP parts lang).1).filter
        (fun u => (netP u).status = 429)).length ∧
    (postUrls (px_post_data_run netP parts lang).1).Nodup ∧
    ((px_get_meta_run netG parts lang).1.filter isSleepEvent = []) ∧
    (getUrls (px_get_meta_run netG parts lang).1).Nodup := by
  obtain ⟨P1, P2, bsP, hbsP, hpuP⟩ := px_post_go_spec netP parts lang API_BASES Option.none
  obtain ⟨G1, bsG, hbsG, hguG⟩ := px_get_go_spec netG parts lang API_BASES Option.none
  simp only [px_post_data_run, px_get_meta_run]
  refine ⟨P1, P2, ?_, G1, ?_⟩
  · rw [hpuP]
    exact map_api_join_nodup parts lang bsP hbsP
  · rw [hguG]
    exact map_api_join_nodup parts lang bsG hbsG

/-- Witness for C6 with a network oracle that always answers HTTP 429:
both bases are tried, each followed by exactly one one-second sleep. -/
theorem px_retry_spec_witness :
    ((px_post_data_run (fun _ => ⟨429, "rate", ⟨Option.none, Option.none, [], [],
        Option.none, Option.none⟩⟩) [] "en").1.filter isSleepEvent).length =
      ((postUrls (px_post_data_run (fun _ => ⟨429, "rate", ⟨Option.none, Option.none,
        [], [], Option.none, Option.none⟩⟩) [] "en").1).filter
          (fun u => ((fun _ => (⟨429, "rate", ⟨Option.none, Option.none, [], [],
            Option.none, Option.none⟩⟩ : PostResp)) u).status = 429)).length ∧
    (1 : Nat) = 1 := by
  refine ⟨?_, ?_⟩
  · exact (px_retry_spec (fun _ => ⟨200, "", ⟨"", []⟩⟩)
      (fun _ => ⟨429, "rate", ⟨Option.none, Option.none, [], [], Option.none,
        Option.none⟩⟩) [] "en").2.1
  · have hmem : NetEvent.sleep 1 ∈ (px_post_data_run
        (fun _ => (⟨429, "rate", ⟨Option.none, Option.none, [], [], Option.none,
          Option.none⟩⟩ : PostResp)) [] "en").1 := by decide
    exact (px_retry_spec (fun _ => ⟨200, "", ⟨"", []⟩⟩)
      (fun _ => ⟨429, "rate", ⟨Option.none, Option.none, [], [], Option.none,
        Option.none⟩⟩) [] "en").1 1 hmem

-- ---------------------------------------------------------------------------
-- C4: base fallback and response-shape fallback
-- ---------------------------------------------------------------------------

/-- C4 counterexample: the claim says every data fetcher indexes a JSON-stat
response (one containing both `value` and `dimension`) by stride arithmetic;
but the fuel (and tourism) fetchers hand every response to `table_lookup`
and raise `PxError` on a JSON-stat response that has no `data` rows. -/
theorem fallback_shape_cex :
    ((⟨some [PyVal.int 1], some [("T", [("2025M1", 0)])], ["T"], [1],
        Option.none, Option.none⟩ : Cube).value?.isSome &&
      (⟨some [PyVal.int 1], some [("T", [("2025M1", 0)])], ["T"], [1],
        Option.none, Option.none⟩ : Cube).dimension?.isSome) = true ∧
    table_only_shape (fun _ => Option.none) ["MWH", "Viti/muaji"]
      (⟨some [PyVal.int 1], some [("T", [("2025M1", 0)])], ["T"], [1],
        Option.none, Option.none⟩ : Cube) = ShapeBranch.pxFailure := ⟨rfl, rfl⟩

/-- C4 (amended): `px_get_meta` and `px_post_data` try the two bases of
`API_BASES` in order, return the parsed JSON of the first response with a
status below 400, and raise `PxError` describing the last failure when both
fail.  The JSON-stat / row-table fallback holds for the energy and partner
fetchers; the fuel and tourism fetchers accept only the row-table shape; the
trade fetcher consumes a non-empty flat `value` list, else the row table,
else silently produces a null series instead of raising. -/
theorem px_fallback_spec (parse : String → Option ℚ) (netG : String → GetResp)
    (netP : String → PostResp) (parts : List String) (lang : String) :
    (respOk (netG (api_join firstBase parts lang)).status = true →
      px_get_meta_run netG parts lang =
        ([NetEvent.get (api_join firstBase parts lang)],
          Except.ok (netG (api_join firstBase parts lang)).json)) ∧
    (respOk (netG (api_join firstBase parts lang)).status = false →
      respOk (netG (api_join secondBase parts lang)).status = true →
      px_get_meta_run netG parts lang =
        ([NetEvent.get (api_join firstBase parts lang),
          NetEvent.get (api_join secondBase parts lang)],
          Except.ok (netG (api_join secondBase parts lang)).json)) ∧
    (respOk (netG (api_join firstBase parts lang)).status = false →
      respOk (netG (api_join secondBase parts lang)).status = false →
      (px_get_meta_run netG parts lang).2 =
        Except.error ("GET " ++ api_join secondBase parts lang ++ " -> " ++
          toString (netG (api_join secondBase parts lang)).status ++ " " ++
          (netG (api_join secondBase parts lang)).reason)) ∧
    (respOk (netP (api_join firstBase parts lang)).status = true →
      px_post_data_run netP parts lang =
        ([NetEvent.post (api_join firstBase parts lang)],
          Except.ok (netP (api_join firstBase parts lang)).json)) ∧
    (respOk (netP (api_join firstBase parts lang)).status = false →
      respOk (netP (api_join secondBase parts lang)).status = true →
      (px_post_data_run netP parts lang).2 =
        Except.ok (netP (api_join secondBase parts lang)).json) ∧
    (respOk (netP (api_join firstBase parts lang)).status = false →
      respOk (netP (api_join secondBase parts lang)).status = false →
      (px_post_data_run netP parts lang).2 =
        Except.error ("POST " ++ api_join secondBase parts lang ++ " -> " ++
          toString (netP (api_join secondBase parts lang)).status ++ " " ++
          pyTake 200 (netP (api_join secondBase parts lang)).text)) ∧
    (∀ (cube : Cube) (dims : List String),
      (cube.value?.isSome && cube.dimension?.isSome) = true →
      stat_or_table_shape parse dims cube = ShapeBranch.jsonStat) ∧
    (∀ (cube : Cube) (dims : List String),
      (cube.value?.isSome && cube.dimension?.isSome) = false →
      (∀ t, table_lookup parse cube (some dims) = some t →
        stat_or_table_shape parse dims cube = ShapeBranch.classicTable) ∧
      (table_lookup parse cube (some dims) = Option.none →
        stat_or_table_shape parse dims cube = ShapeBranch.pxFailure)) ∧
    (∀ (cube : Cube) (dims : List String),
      (∀ t, table_lookup parse cube (some dims) = some t →
        table_only_shape parse dims cube = ShapeBranch.classicTable) ∧
      (table_lookup parse cube (some dims) = Option.none →
        table_only_shape parse dims cube = ShapeBranch.pxFailure) ∧
      table_only_shape parse dims cube ≠ ShapeBranch.jsonStat) ∧
    (∀ (cube : Cube) (dims : List String),
      (cube.value?.getD [] ≠ [] →
        trade_shape parse dims cube = ShapeBranch.valueList) ∧
      (cube.value?.getD [] = [] →
        (∀ t, table_lookup parse cube (some dims) = some t →
          trade_shape parse dims cube = ShapeBranch.classicTable) ∧
        (table_lookup parse cube (some dims) = Option.none →
          trade_shape parse dims cube = ShapeBranch.nullSeries)) ∧
      trade_shape parse dims cube ≠ ShapeBranch.pxFailure) := by
  refine ⟨?_, ?_, ?_, ?_, ?_, ?_, ?_, ?_, ?_, ?_⟩
  · intro h1
    simp only [px_get_meta_run, API_BASES, px_get_meta_go]
    rw [if_pos h1]
  · intro h1 h2
    simp only [px_get_meta_run, API_BASES, px_get_meta_go]
    rw [if_neg (by rw [h1]; exact Bool.false_ne_true), if_pos h2]
  · intro h1 h2
    simp only [px_get_meta_run, API_BASES, px_get_meta_go]
    rw [if_neg (by rw [h1]; exact Bool.false_ne_true),
      if_neg (by rw [h2]; exact Bool.false_ne_true)]
    rfl
  · intro h1
    simp only [px_post_data_run, API_BASES, px_post_data_go]
    rw [if_pos h1]
  · intro h1 h2
    simp only [px_post_data_run, API_BASES, px_post_data_go]
    rw [if_neg (by rw [h1]; exact Bool.false_ne_true)]
    dsimp only
    rw [if_pos h2]
  · intro h1 h2
    simp only [px_post_data_run, API_BASES, px_post_data_go]
    rw [if_neg (by rw [h1]; exact Bool.false_ne_true)]
    dsimp only
    rw [if_neg (by rw [h2]; exact Bool.false_ne_true)]
    rfl
  · intro cube dims h
    simp only [stat_or_table_shape]
    rw [if_pos h]
  · intro cube dims h
    constructor
    · intro t ht
      simp only [stat_or_table_shape]
      rw [if_neg (by rw [h]; exact Bool.false_ne_true), ht]
    · intro ht
      simp only [stat_or_table_shape]
      rw [if_neg (by rw [h]; exact Bool.false_ne_true), ht]
  · intro cube dims
    refine ⟨?_, ?_, ?_⟩
    · intro t ht
      simp only [table_only_shape]
      rw [ht]
    · intro ht
      simp only [table_only_shape]
      rw [ht]
    · simp only [table_only_shape]
      cases table_lookup parse cube (some dims) <;> simp
  · intro cube dims
    refine ⟨?_, ?_, ?_⟩
    · intro h
      simp only [trade_shape]
      rw [if_pos h]
    · intro h
      constructor
      · intro t ht
        simp only [trade_shape]
        rw [if_neg (by rw [h]; exact fun hc => hc rfl), ht]
      · intro ht
        simp only [trade_shape]
        rw [if_neg (by rw [h]; exact fun hc => hc rfl), ht]
    · simp only [trade_shape]
      by_cases h : cube.value?.getD [] ≠ []
      · rw [if_pos h]
        simp
      · rw [if_neg h]
        cases table_lookup parse cube (some dims) <;> simp

/-- Witness for C4 at concrete oracles: the first base answers 200 and is
used; a JSON-stat cube takes the stride branch of the energy/partner
dispatch. -/
theorem px_fallback_spec_witness :
    px_get_meta_run (fun _ => ⟨200, "OK", ⟨"", []⟩⟩) [] "en" =
      ([NetEvent.get (api_join firstBase [] "en")], Except.ok ⟨"", []⟩) ∧
    stat_or_table_shape (fun _ => Option.none) ["T"]
      (⟨some [PyVal.int 1], some [("T", [("2025M1", 0)])], ["T"], [1],
        Option.none, Option.none⟩ : Cube) = ShapeBranch.jsonStat := by
  constructor
  · exact (px_fallback_spec (fun _ => Option.none) (fun _ => ⟨200, "OK", ⟨"", []⟩⟩)
      (fun _ => ⟨200, "", ⟨Option.none, Option.none, [], [], Option.none,
        Option.none⟩⟩) [] "en").1 (by decide)
  · exact (px_fallback_spec (fun _ => Option.none) (fun _ => ⟨200, "OK", ⟨"", []⟩⟩)
      (fun _ => ⟨200, "", ⟨Option.none, Option.none, [], [], Option.none,
        Option.none⟩⟩) [] "en").2.2.2.2.2.2.1
      (⟨some [PyVal.int 1], some [("T", [("2025M1", 0)])], ["T"], [1],
        Option.none, Option.none⟩ : Cube) ["T"] (by decide)

-- ---------------------------------------------------------------------------
-- C1: per-table guards in main
-- ---------------------------------------------------------------------------

/-- C1 counterexample: a `PxError` inside the trade fetch is NOT caught by a
per-table guard: nothing is logged, the energy table is never attempted, and
the process exits with code 2. -/
theorem main_guard_cex :
    (runMain (fun t => if t = TableId.trade then some ExcKind.px else Option.none)
      true).exit = 2 ∧
    (runMain (fun t => if t = TableId.trade then some ExcKind.px else Option.none)
      true).logged = [] ∧
    TableId.energy ∉ (runMain (fun t => if t = TableId.trade then some ExcKind.px
      else Option.none) true).attempted := by
  refine ⟨rfl, rfl, by decide⟩

/-- C1 (amended): only the fuel, tourism and partner fetches are guarded:
their failures are logged and the run continues, and the run then exits 0;
an exception in the trade or energy fetch propagates, aborts the remaining
tables, logs nothing, and exits non-zero (2 for `PxError`, 1 otherwise). -/
theorem main_guard_spec (oc : TableId → Option ExcKind) (pp : Bool) :
    (∀ e, oc TableId.trade = some e →
      runMain oc pp = ⟨[TableId.trade], [], exitCodeFor e⟩ ∧ exitCodeFor e ≠ 0) ∧
    (∀ e, oc TableId.trade = Option.none → oc TableId.energy = some e →
      runMain oc pp = ⟨[TableId.trade, TableId.energy], [], exitCodeFor e⟩ ∧
        exitCodeFor e ≠ 0) ∧
    (oc TableId.trade = Option.none → oc TableId.energy = Option.none →
      (runMain oc pp).exit = 0 ∧
      (runMain oc pp).attempted = TableId.trade :: TableId.energy :: guardedTables pp ∧
      (runMain oc pp).logged = (guardedTables pp).filter (fun t => (oc t).isSome)) := by
  refine ⟨?_, ?_, ?_⟩
  · intro e he
    refine ⟨?_, by cases e <;> simp [exitCodeFor]⟩
    simp only [runMain, he]
  · intro e ht he
    refine ⟨?_, by cases e <;> simp [exitCodeFor]⟩
    simp only [runMain, ht, he]
  · intro ht he
    refine ⟨?_, ?_, ?_⟩ <;> simp [runMain, ht, he]

/-- Witness for C1 at a concrete run: the jet-fuel fetch fails, the run
still finishes with exit code 0 and logs the jet failure. -/
theorem main_guard_spec_witness :
    (runMain (fun t => if t = TableId.jet then some ExcKind.other else Option.none)
      true).exit = 0 ∧
    (runMain (fun t => if t = TableId.jet then some ExcKind.other else Option.none)
      true).attempted = TableId.trade :: TableId.energy :: guardedTables true ∧
    (runMain (fun t => if t = TableId.jet then some ExcKind.other else Option.none)
      true).logged = (guardedTables true).filter
        (fun t => ((fun t2 => if t2 = TableId.jet then some ExcKind.other
          else Option.none) t).isSome) :=
  (main_guard_spec (fun t => if t = TableId.jet then some ExcKind.other
    else Option.none) true).2.2 rfl rfl

-- ---------------------------------------------------------------------------
-- C5: CLI month and partner selection
-- ---------------------------------------------------------------------------

/-- C5 counterexample: `--months 0` is a given `--months` value, but
Python's `args.months or 24` replaces it by the default 24, so the selection
is the last 24 codes and not `all_months[-0:]` (which is the whole list). -/
theorem cli_months_zero_cex :
    monthsOf ⟨Option.none, some 0, false, Option.none, false⟩ = some 24 ∧
    pySliceFrom (-(0 : Int)) (List.range 30) = List.range 30 ∧
    pickMonths (monthsOf ⟨Option.none, some 0, false, Option.none, false⟩)
      (List.range 30) ≠ List.range 30 := by decide

/-- C5 (amended): `--all` selects every available code (`months = None`);
otherwise the selection is `all_months[-N:]` with `N` the value of
`--months` when given and non-zero, and 24 by default (a zero `--months`
falls back to 24); for positive `N` that is the last `N` codes; and
`--no-partners` forces the partner fetch to be skipped even when
`--partners` is given. -/
theorem cli_selection_spec (a : Args) (l : List String) :
    (a.all = true → monthsOf a = Option.none ∧ pickMonths Option.none l = l) ∧
    (∀ m : Int, a.all = false → a.months = some m → m ≠ 0 → monthsOf a = some m) ∧
    (a.all = false → (a.months = Option.none ∨ a.months = some 0) →
      monthsOf a = some 24) ∧
    (∀ m : Int, m ≠ 0 → pickMonths (some m) l = pySliceFrom (-m) l) ∧
    (∀ m : Int, 0 < m → pickMonths (some m) l = l.drop (l.length - m.toNat)) ∧
    (a.no_partners = true → partnersOf a = Option.none ∧
      partnerFetchRuns (partnersOf a) = false) := by
  refine ⟨?_, ?_, ?_, ?_, ?_, ?_⟩
  · intro h
    constructor
    · simp [monthsOf, h]
    · rfl
  · intro m hall hm hnz
    simp [monthsOf, hall, hm, hnz]
  · intro hall hm
    rcases hm with hm | hm <;> simp [monthsOf, hall, hm]
  · intro m hm
    simp only [pickMonths]
    rw [if_neg hm]
  · intro m hm
    simp only [pickMonths]
    rw [if_neg (by omega)]
    simp only [pySliceFrom]
    rw [if_pos (by omega : -m < 0)]
    norm_num
  · intro h
    constructor
    · simp [partnersOf, h]
    · simp [partnersOf, h, partnerFetchRuns]

/-- Witness for C5 at concrete arguments: `--months 2` picks the last two
codes; `--no-partners` wins over `--partners AL`. -/
theorem cli_selection_spec_witness :
    monthsOf ⟨Option.none, some 2, false, some "AL", true⟩ = some 2 ∧
    pickMonths (some 2) ["a", "b", "c"] =
      (["a", "b", "c"] : List String).drop ((["a", "b", "c"] : List String).length -
        (2 : Int).toNat) ∧
    partnersOf ⟨Option.none, some 2, false, some "AL", true⟩ = Option.none := by
  refine ⟨?_, ?_, ?_⟩
  · exact (cli_selection_spec ⟨Option.none, some 2, false, some "AL", true⟩
      []).2.1 2 rfl rfl (by decide)
  · exact (cli_selection_spec ⟨Option.none, some 2, false, some "AL", true⟩
      ["a", "b", "c"]).2.2.2.2.1 2 (by decide)
  · exact ((cli_selection_spec ⟨Option.none, some 2, false, some "AL", true⟩
      []).2.2.2.2.2 rfl).1

-- ---------------------------------------------------------------------------
-- C7: shape of the kas_imports_monthly records
-- ---------------------------------------------------------------------------

/-- C7: the trade series has exactly one record per selected time code, in
the same order; each record consists of the two fields `period` (the
normalised code) and `imports_th_eur` (`tidy_number` of the coerced value:
an int when integer-valued, a float otherwise, or null). -/
theorem trade_records_spec (pick : List String) (coerced : List (Option ℚ)) :
    (tradeSeries pick coerced).length = pick.length ∧
    (∀ i, i < pick.length →
      (tradeSeries pick coerced).get? i = some
        ⟨normalize_ym (pick.getD i ""),
          tidy_number ((coerced.get? i).getD Option.none)⟩) ∧
    tidy_number Option.none = Option.none ∧
    (∀ q : ℚ, q.den = 1 → tidy_number (some q) = some (JNum.int q.num)) ∧
    (∀ q : ℚ, q.den ≠ 1 → tidy_number (some q) = some (JNum.float q)) := by
  refine ⟨by simp [tradeSeries], ?_, rfl, ?_, ?_⟩
  · intro i hi
    simp only [tradeSeries]
    rw [List.get?_map, List.get?_range hi]
    rfl
  · intro q h
    simp [tidy_number, h]
  · intro q h
    simp [tidy_number, h]

/-- Witness for C7 at a concrete series: two picked codes, one coerced
value; the second record's value is null, and an integer-valued rational is
written as an int. -/
theorem trade_records_spec_witness :
    (tradeSeries ["2025M7", "2025M8"] [some (10 : ℚ)]).get? 1 =
      some ⟨normalize_ym "2025M8", tidy_number Option.none⟩ ∧
    tidy_number (some (3 : ℚ)) = some (JNum.int (3 : ℚ).num) := by
  constructor
  · exact (trade_records_spec ["2025M7", "2025M8"] [some (10 : ℚ)]).2.1 1 (by decide)
  · exact (trade_records_spec [] []).2.2.2.1 (3 : ℚ) (by norm_num)

end FetchKas
